import Mathlib

/-!
Verification of the cc-tracker core (src/db.rs): proleptic-Gregorian calendar
arithmetic, statement-cycle resolution, spending aggregation and the card
eligibility / ranking engine.

Conventions of the shallow embedding:
* Rust `i32` arithmetic is modelled on `Int`; Rust `/` and `%` truncate toward
  zero, so they are embedded as `Int.tdiv` / `Int.tmod` (`Int./` in Lean is
  Euclidean division and is used only in proof-side helper definitions).
* Calendar dates that the Rust code passes around as "YYYY-MM-DD" strings are
  modelled as `Int × Int × Int` triples; the zero-padded formatting used for
  the stored `date` TEXT column is modelled explicitly by `fmtDate` as the
  list of its bytes, and the SQLite BINARY collation on TEXT by `bytesLe`.
* Rust `f64` amounts are modelled by `ℚ` (the spec only relies on exact
  decimal arithmetic and floor).
-/

set_option maxRecDepth 100000

/-- Converts a (year, month, day) to days since the Unix epoch.  Direct
translation of `ymd_to_days` in src/db.rs (Howard Hinnant's civil algorithm);
all `/` in the source are Rust `i32` divisions, hence `Int.tdiv`. -/
def ymd_to_days (year month day : Int) : Int :=
  let y := if month ≤ 2 then year - 1 else year
  let era := (if 0 ≤ y then y else y - 399).tdiv 400
  let yoe := y - era * 400
  let doy := (153 * (if 2 < month then month - 3 else month + 9) + 2).tdiv 5 + day - 1
  let doe := yoe * 365 + yoe.tdiv 4 - yoe.tdiv 100 + doy
  era * 146097 + doe - 719468

/-- Day of week for a date: 0=Monday, 1=Tuesday, ... 5=Saturday, 6=Sunday.
Direct translation of `day_of_week` in src/db.rs (`%` is Rust remainder,
hence `Int.tmod`). -/
def day_of_week (year month day : Int) : Int :=
  let days := ymd_to_days year month day
  ((days.tmod 7) + 7 + 3).tmod 7

/-- Converts days since the Unix epoch back to (year, month, day).  Direct
translation of `days_to_ymd` in src/db.rs. -/
def days_to_ymd (days : Int) : Int × Int × Int :=
  let z := days + 719468
  let era := (if 0 ≤ z then z else z - 146096).tdiv 146097
  let doe := z - era * 146097
  let yoe := (doe - doe.tdiv 1460 + doe.tdiv 36524 - doe.tdiv 146096).tdiv 365
  let y := yoe + era * 400
  let doy := doe - (365 * yoe + yoe.tdiv 4 - yoe.tdiv 100)
  let mp := (5 * doy + 2).tdiv 153
  let d := doy - (153 * mp + 2).tdiv 5 + 1
  let m := if mp < 10 then mp + 3 else mp - 9
  (if m ≤ 2 then y + 1 else y, m, d)

/-- If the given date falls on a weekend, moves it to the previous Friday.
Direct translation of `adjust_for_weekend` in src/db.rs. -/
def adjust_for_weekend (year month day : Int) : Int × Int × Int :=
  let dow := day_of_week year month day
  let shift : Int := if dow = 5 then 1 else if dow = 6 then 2 else 0
  if shift = 0 then (year, month, day)
  else days_to_ymd (ymd_to_days year month day - shift)

/-- Start date of the current statement cycle for a card, given its renewal
day and a reference date.  Direct translation of `cycle_start_date` in
src/db.rs, with the "YYYY-MM-DD" string argument/result modelled as a
(year, month, day) triple (the string parsing and zero-padded formatting of
the source are modelled by `fmtDate`). -/
def cycle_start_date (renewal_day : Int) : Int × Int × Int → Int × Int × Int
  | (year, month, day) =>
    let a := adjust_for_weekend year month renewal_day
    let ay := a.1
    let am := a.2.1
    let ad := a.2.2
    if ad ≤ day ∧ am = month then (ay, am, ad)
    else
      let p := if month = 1 then (year - 1, 12) else (year, month - 1)
      adjust_for_weekend p.1 p.2 renewal_day

/-- Gregorian leap year under the 400/100/4-year rules. -/
def isLeapYear (y : Int) : Prop := (4 ∣ y ∧ ¬ (100 ∣ y)) ∨ 400 ∣ y

instance (y : Int) : Decidable (isLeapYear y) := by
  unfold isLeapYear; infer_instance

/-- Number of days in a month of the proleptic-Gregorian calendar. -/
def daysInMonth (y m : Int) : Int :=
  if m = 2 then (if isLeapYear y then 29 else 28)
  else if m = 4 ∨ m = 6 ∨ m = 9 ∨ m = 11 then 30
  else 31

/-- A valid proleptic-Gregorian calendar date. -/
def isValidDate (y m d : Int) : Prop :=
  1 ≤ m ∧ m ≤ 12 ∧ 1 ≤ d ∧ d ≤ daysInMonth y m

instance (y m d : Int) : Decidable (isValidDate y m d) := by
  unfold isValidDate; infer_instance

/-- Proof-side helper: days from 1 March of year 0 to 1 March of year `y`
(Euclidean division). -/
def yearDays (y : Int) : Int := 365 * y + y / 4 - y / 100 + y / 400

/-- Proof-side helper: first day-of-era of year-of-era `yoe` (March-based). -/
def eraStart (yoe : Int) : Int := 365 * yoe + yoe / 4 - yoe / 100

/-- Proof-side helper: last day-of-era of year-of-era `yoe`. -/
def eraEnd (yoe : Int) : Int := if yoe = 399 then 146096 else eraStart (yoe + 1) - 1

/-- Proof-side helper: the year-of-era recovery formula of `days_to_ymd`,
written with Euclidean division. -/
def yoeRec (doe : Int) : Int := (doe - doe / 1460 + doe / 36524 - doe / 146096) / 365

/-- Proof-side helper: day-of-year offset of March-based month `mp`. -/
def monthStart (mp : Int) : Int := (153 * mp + 2) / 5

/-- Cycle-start resolution, written following the specification text (§4.2):
compute the weekend-adjusted renewal date within the reference date's month;
if the reference day-of-month is on or after the adjusted day-of-month and the
adjustment did not push the date into a different month, return the adjusted
date, otherwise return the weekend-adjusted renewal date of the month
preceding the reference month (December of the prior year when the reference
month is January). -/
def cycleStartSpec (renewalDay : Int) : Int × Int × Int → Int × Int × Int
  | (year, month, day) =>
    let adjusted := adjust_for_weekend year month renewalDay
    let stayedInMonth := adjusted.2.1 = month
    let onOrAfter := adjusted.2.2 ≤ day
    if onOrAfter ∧ stayedInMonth then adjusted
    else
      let prevYear := if month = 1 then year - 1 else year
      let prevMonth := if month = 1 then 12 else month - 1
      adjust_for_weekend prevYear prevMonth renewalDay

/-- Byte-wise comparison of TEXT values, as SQLite's BINARY collation
(memcmp; on a tie the shorter operand sorts first).  `bytesLe a b` means
`a <= b`. -/
def bytesLe : List Nat → List Nat → Bool
  | [], _ => true
  | _ :: _, [] => false
  | a :: as, b :: bs =>
    if a < b then true else if b < a then false else bytesLe as bs

/-- Bytes of the two-digit zero-padded decimal rendering (Rust `{:02}`),
for values in 0..99. -/
def pad2 (n : Int) : List Nat := [48 + n.toNat / 10 % 10, 48 + n.toNat % 10]

/-- Bytes of the four-digit zero-padded decimal rendering (Rust `{:04}`),
for values in 0..9999. -/
def pad4 (n : Int) : List Nat :=
  [48 + n.toNat / 1000 % 10, 48 + n.toNat / 100 % 10, 48 + n.toNat / 10 % 10,
   48 + n.toNat % 10]

/-- Bytes of the `format!("{:04}-{:02}-{:02}", y, m, d)` date rendering used
by `cycle_start_date` and by the stored `date` TEXT column (45 is the ASCII
hyphen); models the in-range case 0 ≤ year ≤ 9999. -/
def fmtDate : Int × Int × Int → List Nat
  | (y, m, d) => pad4 y ++ [45] ++ pad2 m ++ [45] ++ pad2 d

/-- Semantic content of the human-readable `reason` strings built by
`best_card_for_category` (the `format!` payloads). -/
inductive Reason where
  | exceedsLimit (remaining : ℚ)
  | minSpendNotMet (shortfall : ℚ)
  | eligible
deriving DecidableEq

/-- A row of the `cards` table (the `Card` model in src/models.rs); category
sets are kept as lists of byte strings, `f64` as `ℚ`. -/
structure Card where
  id : Int
  name : String
  categories : List (List Nat)
  payment_categories : List (List Nat)
  miles_per_dollar : ℚ
  miles_per_dollar_foreign : Option ℚ
  block_size : ℚ
  statement_renewal_date : Int
  max_reward_limit : Option ℚ
  min_spend : Option ℚ

/-- A row of the `spending` table (the `Spending` model in src/models.rs);
the `date` TEXT column is kept as its bytes. -/
structure Spending where
  id : Int
  card_id : Int
  amount : ℚ
  category : List Nat
  date : List Nat
  miles_earned : ℚ

/-- In-memory model of the SQLite database contents. -/
structure DB where
  cards : List Card
  spending : List Spending

/-- The candidate row selected by the card query of
`best_card_for_category` (the local `CandidateCard` struct in src/db.rs). -/
structure CandidateCard where
  id : Int
  name : String
  miles_per_dollar : ℚ
  block_size : ℚ
  effective_rate : ℚ
  max_reward_limit : Option ℚ
  min_spend : Option ℚ
  statement_renewal_date : Int

/-- The `CardRecommendation` result rows (src/models.rs), with the reason
string replaced by its semantic content. -/
structure CardRecommendation where
  card_name : String
  miles_per_dollar : ℚ
  block_size : ℚ
  effective_rate : ℚ
  miles_earned : ℚ
  remaining_limit : Option ℚ
  eligible : Bool
  reason : Reason
deriving DecidableEq

/-- ASCII lower-casing of a byte string, modelling SQLite's LOWER(). -/
def lowerAscii (s : List Nat) : List Nat :=
  s.map (fun c => if 65 ≤ c ∧ c ≤ 90 then c + 32 else c)

/-- Calculates miles earned: floor(amount / block_size) * miles_per_dollar
(`calculate_miles` in src/db.rs; `f64::floor` on the exact rational). -/
def calculate_miles (amount block_size miles_per_dollar : ℚ) : ℚ :=
  (Rat.floor (amount / block_size) : ℚ) * miles_per_dollar

/-- The candidate query of `best_card_for_category` (src/db.rs lines
179-213): DISTINCT cards whose category list and payment-category list
contain the arguments case-insensitively, ordered by effective rate
descending (`ORDER BY effective_rate DESC`; SQLite leaves the tie order
unspecified, the model fixes the stable one). -/
def queryCandidates (db : DB) (category payment_category : List Nat) :
    List CandidateCard :=
  ((db.cards.filter (fun c =>
      c.categories.any (fun j => lowerAscii j == lowerAscii category) &&
      c.payment_categories.any (fun p => lowerAscii p == lowerAscii payment_category))).map
    (fun c =>
      { id := c.id, name := c.name, miles_per_dollar := c.miles_per_dollar,
        block_size := c.block_size,
        effective_rate := c.miles_per_dollar / c.block_size,
        max_reward_limit := c.max_reward_limit, min_spend := c.min_spend,
        statement_renewal_date := c.statement_renewal_date })).mergeSort
    (fun a b => decide (b.effective_rate ≤ a.effective_rate))

/-- The per-card cycle query of `best_card_for_category` (src/db.rs lines
222-227): `SELECT COALESCE(SUM(amount), 0.0) FROM spending WHERE card_id =
?1 AND date >= ?2`; the TEXT comparison is byte-wise, the empty sum is 0. -/
def sumSpending (sp : List Spending) (cardId : Int) (since : List Nat) : ℚ :=
  ((sp.filter (fun s => s.card_id == cardId && bytesLe since s.date)).map
    (fun s => s.amount)).sum

/-- The storage collaborator as `best_card_for_category` sees it: the card
query and the per-card aggregate query, both fallible (rusqlite `Result`). -/
structure Store (E : Type) where
  queryCandidates : List Nat → List Nat → Except E (List CandidateCard)
  querySum : Int → List Nat → Except E ℚ

/-- Loop body of `best_card_for_category` (src/db.rs lines 217-263): builds
one `CardRecommendation` from a candidate and its cycle-to-date total.  The
source's `remaining_limit.unwrap()` / `card.min_spend.unwrap()` are written
`Option.getD _ 0`; the guards make them reachable only on `some`. -/
def mkRecommendation (card : CandidateCard) (amount cycle_total : ℚ) :
    CardRecommendation :=
  let miles_this_txn := calculate_miles amount card.block_size card.miles_per_dollar
  let remaining_limit := card.max_reward_limit.map (fun limit => max (limit - cycle_total) 0)
  let exceeded_limit := match remaining_limit with
    | some remaining => decide (remaining < amount)
    | none => false
  let min_spend_met := match card.min_spend with
    | some mn => decide (mn ≤ cycle_total)
    | none => true
  let er := if exceeded_limit then
      (false, Reason.exceedsLimit (remaining_limit.getD 0))
    else if !min_spend_met then
      (false, Reason.minSpendNotMet (card.min_spend.getD 0 - cycle_total))
    else (true, Reason.eligible)
  { card_name := card.name, miles_per_dollar := card.miles_per_dollar,
    block_size := card.block_size, effective_rate := card.effective_rate,
    miles_earned := miles_this_txn, remaining_limit := remaining_limit,
    eligible := er.1, reason := er.2 }

/-- The `for card in &candidates` loop of `best_card_for_category`: one
cycle-start resolution and one `querySum` per candidate, `?`-propagating the
first failure, collecting recommendations in candidate order. -/
def processCandidates {E : Type} (s : Store E) (amount : ℚ)
    (date : Int × Int × Int) : List CandidateCard → Except E (List CardRecommendation)
  | [] => Except.ok []
  | card :: rest => do
    let cycle_start := fmtDate (cycle_start_date card.statement_renewal_date date)
    let cycle_total ← s.querySum card.id cycle_start
    let others ← processCandidates s amount date rest
    pure (mkRecommendation card amount cycle_total :: others)

/-- The final-sort comparator of `best_card_for_category` (src/db.rs lines
266-269), `b.eligible.cmp(&a.eligible).then(b.effective_rate.partial_cmp(
&a.effective_rate).unwrap())`, as the Boolean relation "the comparator does
not order `a` strictly after `b`". -/
def recLe (a b : CardRecommendation) : Bool :=
  if a.eligible = b.eligible then decide (b.effective_rate ≤ a.effective_rate)
  else a.eligible

/-- `best_card_for_category` (src/db.rs lines 171-272) over an abstract
storage collaborator: query the candidates, build the recommendations (any
storage error aborts the whole computation via `?`), then stable-sort
eligible-first and by effective rate descending (Rust's `sort_by` is a
stable merge sort). -/
def best_card_for_category {E : Type} (s : Store E)
    (category payment_category : List Nat) (amount : ℚ) (date : Int × Int × Int) :
    Except E (List CardRecommendation) := do
  let candidates ← s.queryCandidates category payment_category
  let results ← processCandidates s amount date candidates
  pure (results.mergeSort recLe)

/-- The database-backed store, whose queries never fail. -/
def storeOfDb (db : DB) : Store Empty where
  queryCandidates category payment_category :=
    Except.ok (queryCandidates db category payment_category)
  querySum cardId since := Except.ok (sumSpending db.spending cardId since)

/-- The database-backed recommendation function. -/
def bestCardDb (db : DB) (category payment_category : List Nat) (amount : ℚ)
    (date : Int × Int × Int) : List CardRecommendation :=
  match best_card_for_category (storeOfDb db) category payment_category amount date with
  | Except.ok rs => rs
  | Except.error e => e.elim

/-- `add_spending` (src/db.rs lines 281-304): look up the card's rates (the
row query fails when the id is absent), compute the earned miles with
`calculate_miles`, insert the new spending row; returns the updated store,
the new row id and the miles earned. -/
def add_spending (db : DB) (card_id : Int) (amount : ℚ) (category date : List Nat) :
    Option (DB × Int × ℚ) :=
  match db.cards.find? (fun c => c.id == card_id) with
  | none => none
  | some c =>
    let miles_earned := calculate_miles amount c.block_size c.miles_per_dollar
    let newId : Int := db.spending.length + 1
    some ({ db with spending := db.spending ++
        [{ id := newId, card_id := card_id, amount := amount, category := category,
           date := date, miles_earned := miles_earned }] }, newId, miles_earned)

/-- The eligibility decision written following the specification's priority
list (§4.3 steps 4-5): `remainingLimit = max(0, limit − cycleTotal)` when a
limit exists; ineligible with the remaining headroom when `amount >
remainingLimit`; otherwise ineligible with the shortfall `minimum −
cycleTotal` when a minimum exists and `cycleTotal < minimum`; otherwise
eligible. -/
def eligibilitySpec (amount cycleTotal : ℚ) (maxLimit minSpend : Option ℚ) :
    Bool × Reason :=
  let minSpendStep : Bool × Reason :=
    match minSpend with
    | some minimum =>
      if cycleTotal < minimum then (false, Reason.minSpendNotMet (minimum - cycleTotal))
      else (true, Reason.eligible)
    | none => (true, Reason.eligible)
  match maxLimit.map (fun limit => max 0 (limit - cycleTotal)) with
  | some remainingLimit =>
    if amount > remainingLimit then (false, Reason.exceedsLimit remainingLimit)
    else minSpendStep
  | none => minSpendStep

/-- Ranking order required of the output list: eligible strictly before
ineligible, and effective rate descending within a group. -/
def recOrdered (x y : CardRecommendation) : Prop :=
  (x.eligible = true ∧ y.eligible = false) ∨
  (x.eligible = y.eligible ∧ y.effective_rate ≤ x.effective_rate)

/-- Two recommendations tied on both sort keys. -/
def recTie (x y : CardRecommendation) : Prop :=
  x.eligible = y.eligible ∧ x.effective_rate = y.effective_rate

theorem eraTrick400 (y : Int) :
    (if 0 ≤ y then y else y - 399).tdiv 400 = y / 400 := by
  split
  · exact Int.tdiv_eq_ediv (by assumption) (by norm_num)
  · rename_i h
    have h2 : y - 399 = -(399 - y) := by ring
    rw [h2, Int.neg_tdiv, Int.tdiv_eq_ediv (by omega) (by norm_num)]
    omega

theorem eraTrick146097 (z : Int) :
    (if 0 ≤ z then z else z - 146096).tdiv 146097 = z / 146097 := by
  split
  · exact Int.tdiv_eq_ediv (by assumption) (by norm_num)
  · rename_i h
    have h2 : z - 146096 = -(146096 - z) := by ring
    rw [h2, Int.neg_tdiv, Int.tdiv_eq_ediv (by omega) (by norm_num)]
    omega

theorem tmodSeven (n : Int) : ((n.tmod 7) + 7 + 3).tmod 7 = (n + 3) % 7 := by
  rcases le_or_lt 0 n with h | h
  · have h1 : n.tmod 7 = n % 7 := Int.tmod_eq_emod h (by norm_num)
    have h2 : 0 ≤ n.tmod 7 + 7 + 3 := by rw [h1]; omega
    rw [Int.tmod_eq_emod h2 (by norm_num), h1]
    omega
  · have e1 := Int.tmod_def n 7
    have e2 := Int.tmod_def (-n) 7
    have e3 := Int.neg_tdiv n 7
    have h1 : n.tmod 7 = -((-n).tmod 7) := by rw [e1, e2, e3]; ring
    have h2 : (-n).tmod 7 = (-n) % 7 := Int.tmod_eq_emod (by omega) (by norm_num)
    have h3 : 0 ≤ n.tmod 7 + 7 + 3 := by rw [h1, h2]; omega
    rw [Int.tmod_eq_emod h3 (by norm_num), h1, h2]
    omega

/-- `day_of_week` in terms of Euclidean arithmetic on the day number. -/
theorem day_of_week_eq (year month day : Int) :
    day_of_week year month day = (ymd_to_days year month day + 3) % 7 := by
  unfold day_of_week
  exact tmodSeven _

theorem day_of_week_range (year month day : Int) :
    0 ≤ day_of_week year month day ∧ day_of_week year month day ≤ 6 := by
  rw [day_of_week_eq]
  omega

theorem eraStart_nonneg {yoe : Int} (h : 0 ≤ yoe) : 0 ≤ eraStart yoe := by
  unfold eraStart; omega

theorem eraStart_mono {a b : Int} (h : a ≤ b) : eraStart a ≤ eraStart b := by
  unfold eraStart; omega

theorem eraStart_400 : eraStart 400 = 146096 := by unfold eraStart; decide

theorem eraEnd_le {yoe : Int} (h0 : 0 ≤ yoe) (h1 : yoe ≤ 399) :
    eraEnd yoe ≤ 146096 := by
  unfold eraEnd
  split
  · omega
  · have h2 : eraStart (yoe + 1) ≤ eraStart 400 := eraStart_mono (by omega)
    rw [eraStart_400] at h2
    omega

theorem eraLen {yoe : Int} (h0 : 0 ≤ yoe) (h1 : yoe ≤ 399) :
    364 ≤ eraEnd yoe - eraStart yoe ∧ eraEnd yoe - eraStart yoe ≤ 365 := by
  unfold eraEnd eraStart
  split
  · omega
  · omega

theorem yoeRec_mono {a b : Int} (h0 : 0 ≤ a) (hab : a ≤ b) (hb : b ≤ 146096) :
    yoeRec a ≤ yoeRec b := by
  unfold yoeRec
  apply Int.ediv_le_ediv (by norm_num)
  omega

theorem yoeRec_endpoints :
    ∀ n : Fin 400, yoeRec (eraStart n.val) = n.val ∧ yoeRec (eraEnd n.val) = n.val := by
  decide

theorem yoeRec_interval {yoe doe : Int} (h0 : 0 ≤ yoe) (h1 : yoe ≤ 399)
    (hl : eraStart yoe ≤ doe) (hr : doe ≤ eraEnd yoe) : yoeRec doe = yoe := by
  have hep := yoeRec_endpoints ⟨yoe.toNat, by omega⟩
  simp only [Int.toNat_of_nonneg h0] at hep
  have hs0 : 0 ≤ eraStart yoe := eraStart_nonneg h0
  have he : eraEnd yoe ≤ 146096 := eraEnd_le h0 h1
  have m1 : yoeRec (eraStart yoe) ≤ yoeRec doe := yoeRec_mono hs0 hl (by omega)
  have m2 : yoeRec doe ≤ yoeRec (eraEnd yoe) := yoeRec_mono (by omega) hr he
  omega

theorem era_interval_exists :
    ∀ k : Nat, k ≤ 399 → ∀ doe : Int, 0 ≤ doe → doe ≤ eraEnd k →
      ∃ yoe : Int, 0 ≤ yoe ∧ yoe ≤ (k : Int) ∧ eraStart yoe ≤ doe ∧ doe ≤ eraEnd yoe := by
  intro k
  induction k with
  | zero =>
    intro _ doe h0 h1
    refine ⟨0, le_refl 0, le_refl 0, ?_, ?_⟩
    · unfold eraStart; omega
    · exact_mod_cast h1
  | succ n ih =>
    intro hk doe h0 h1
    by_cases hs : eraStart ((n : Int) + 1) ≤ doe
    · refine ⟨(n : Int) + 1, by omega, by push_cast; omega, hs, ?_⟩
      have : ((n + 1 : Nat) : Int) = (n : Int) + 1 := by push_cast; ring
      rw [this] at h1
      exact h1
    · have hend : doe ≤ eraEnd (n : Int) := by
        unfold eraEnd
        rw [if_neg (by omega)]
        omega
      obtain ⟨yoe, hy0, hy1, hy2, hy3⟩ := ih (by omega) doe h0 hend
      exact ⟨yoe, hy0, by push_cast; omega, hy2, hy3⟩

theorem yearDays_split (era yoe : Int) (h0 : 0 ≤ yoe) (h1 : yoe ≤ 399) :
    yearDays (yoe + era * 400) = era * 146097 + eraStart yoe := by
  unfold yearDays eraStart
  omega

/-- Closed form of `ymd_to_days` in Euclidean arithmetic. -/
theorem ymd_to_days_closed (year month day : Int) (hm1 : 1 ≤ month) (hm2 : month ≤ 12) :
    ymd_to_days year month day =
      yearDays (if month ≤ 2 then year - 1 else year)
        + monthStart (if 2 < month then month - 3 else month + 9) + day - 1 - 719468 := by
  simp only [ymd_to_days, yearDays, monthStart, eraTrick400]
  rcases le_or_lt month 2 with h | h
  · simp only [if_pos h, if_neg (show ¬ 2 < month by omega)]
    have e1 : (153 * (month + 9) + 2).tdiv 5 = (153 * (month + 9) + 2) / 5 :=
      Int.tdiv_eq_ediv (by omega) (by norm_num)
    have e2 : (year - 1 - (year - 1) / 400 * 400).tdiv 4
        = (year - 1 - (year - 1) / 400 * 400) / 4 :=
      Int.tdiv_eq_ediv (by omega) (by norm_num)
    have e3 : (year - 1 - (year - 1) / 400 * 400).tdiv 100
        = (year - 1 - (year - 1) / 400 * 400) / 100 :=
      Int.tdiv_eq_ediv (by omega) (by norm_num)
    rw [e1, e2, e3]
    omega
  · simp only [if_neg (show ¬ month ≤ 2 by omega), if_pos h]
    have e1 : (153 * (month - 3) + 2).tdiv 5 = (153 * (month - 3) + 2) / 5 :=
      Int.tdiv_eq_ediv (by omega) (by norm_num)
    have e2 : (year - year / 400 * 400).tdiv 4 = (year - year / 400 * 400) / 4 :=
      Int.tdiv_eq_ediv (by omega) (by norm_num)
    have e3 : (year - year / 400 * 400).tdiv 100 = (year - year / 400 * 400) / 100 :=
      Int.tdiv_eq_ediv (by omega) (by norm_num)
    rw [e1, e2, e3]
    omega

/-- Structured description of `days_to_ymd`: names for the intermediate
quantities of the algorithm, their ranges, and the output in terms of them. -/
theorem days_to_ymd_structure (n : Int) :
    ∃ era doe yoe doy mp : Int,
      n + 719468 = era * 146097 + doe ∧ 0 ≤ doe ∧ doe ≤ 146096 ∧
      yoe = yoeRec doe ∧ 0 ≤ yoe ∧ yoe ≤ 399 ∧
      eraStart yoe ≤ doe ∧ doe ≤ eraEnd yoe ∧
      doy = doe - eraStart yoe ∧ 0 ≤ doy ∧ doy ≤ 365 ∧
      mp = (5 * doy + 2) / 153 ∧ 0 ≤ mp ∧ mp ≤ 11 ∧
      days_to_ymd n =
        ((if mp < 10 then yoe + era * 400 else yoe + era * 400 + 1),
         (if mp < 10 then mp + 3 else mp - 9),
         doy - monthStart mp + 1) := by
  set z := n + 719468 with hz
  set doe := z - z / 146097 * 146097 with hd
  have h0 : 0 ≤ doe := by omega
  have h1 : doe ≤ 146096 := by omega
  have hEnd399 : eraEnd ((399 : Nat) : Int) = 146096 := by
    norm_num [eraEnd]
  obtain ⟨y0, hy00, hy01, hy02, hy03⟩ :=
    era_interval_exists 399 (le_refl _) doe h0 (by rw [hEnd399]; exact h1)
  have hy399 : y0 ≤ 399 := by exact_mod_cast hy01
  have hyoeq : yoeRec doe = y0 := yoeRec_interval hy00 hy399 hy02 hy03
  set doy := doe - eraStart y0 with hdoy
  have hlen := eraLen hy00 hy399
  have hdoy0 : 0 ≤ doy := by omega
  have hdoy1 : doy ≤ 365 := by omega
  set mp := (5 * doy + 2) / 153 with hmp
  have hmp0 : 0 ≤ mp := by rw [hmp]; exact Int.ediv_nonneg (by omega) (by norm_num)
  have hmp1 : mp ≤ 11 := by omega
  refine ⟨z / 146097, doe, y0, doy, mp, by omega, h0, h1, hyoeq.symm, hy00, hy399,
    hy02, hy03, rfl, hdoy0, hdoy1, rfl, hmp0, hmp1, ?_⟩
  simp only [days_to_ymd, eraTrick146097]
  rw [← hz, ← hd]
  have e1 : doe.tdiv 1460 = doe / 1460 := Int.tdiv_eq_ediv h0 (by norm_num)
  have e2 : doe.tdiv 36524 = doe / 36524 := Int.tdiv_eq_ediv h0 (by norm_num)
  have e3 : doe.tdiv 146096 = doe / 146096 := Int.tdiv_eq_ediv h0 (by norm_num)
  rw [e1, e2, e3]
  have h2 : 0 ≤ doe - doe / 1460 + doe / 36524 - doe / 146096 := by omega
  have e4 : (doe - doe / 1460 + doe / 36524 - doe / 146096).tdiv 365
      = (doe - doe / 1460 + doe / 36524 - doe / 146096) / 365 :=
    Int.tdiv_eq_ediv h2 (by norm_num)
  rw [e4]
  have e5 : (doe - doe / 1460 + doe / 36524 - doe / 146096) / 365 = yoeRec doe := rfl
  rw [e5, hyoeq]
  have e6 : y0.tdiv 4 = y0 / 4 := Int.tdiv_eq_ediv hy00 (by norm_num)
  have e7 : y0.tdiv 100 = y0 / 100 := Int.tdiv_eq_ediv hy00 (by norm_num)
  rw [e6, e7]
  have e8 : doe - (365 * y0 + y0 / 4 - y0 / 100) = doy := by
    rw [hdoy]; unfold eraStart; ring
  rw [e8]
  have e9 : (5 * doy + 2).tdiv 153 = (5 * doy + 2) / 153 :=
    Int.tdiv_eq_ediv (by omega) (by norm_num)
  rw [e9, ← hmp]
  have e10 : (153 * mp + 2).tdiv 5 = (153 * mp + 2) / 5 :=
    Int.tdiv_eq_ediv (by omega) (by norm_num)
  rw [e10]
  have e11 : (153 * mp + 2) / 5 = monthStart mp := rfl
  rw [e11]
  rcases lt_or_ge mp 10 with hc | hc
  · simp only [if_pos hc, if_neg (show ¬ (mp + 3 ≤ 2) by omega)]
  · simp only [if_neg (show ¬ mp < 10 by omega), if_pos (show mp - 9 ≤ 2 by omega)]

/-- Converting a day number to a date and back is the identity on every
integer day number. -/
theorem ymd_to_days_days_to_ymd (n : Int) :
    ymd_to_days (days_to_ymd n).1 (days_to_ymd n).2.1 (days_to_ymd n).2.2 = n := by
  obtain ⟨era, doe, yoe, doy, mp, h1, h2, h3, h4, h5, h6, h7, h8, h9, h10, h11,
    h12, h13, h14, hout⟩ := days_to_ymd_structure n
  rw [hout]
  dsimp only
  rcases lt_or_ge mp 10 with hc | hc
  · simp only [if_pos hc]
    rw [ymd_to_days_closed _ _ _ (by omega) (by omega)]
    rw [if_neg (show ¬ mp + 3 ≤ 2 by omega), if_pos (show 2 < mp + 3 by omega)]
    rw [show mp + 3 - 3 = mp by ring]
    rw [yearDays_split era yoe h5 h6]
    omega
  · simp only [if_neg (show ¬ mp < 10 by omega)]
    rw [ymd_to_days_closed _ _ _ (by omega) (by omega)]
    rw [if_pos (show mp - 9 ≤ 2 by omega), if_neg (show ¬ 2 < mp - 9 by omega)]
    rw [show mp - 9 + 9 = mp by ring, show yoe + era * 400 + 1 - 1 = yoe + era * 400 by ring]
    rw [yearDays_split era yoe h5 h6]
    omega

/-- Weekday of the date produced by `days_to_ymd`. -/
theorem day_of_week_days_to_ymd (n : Int) :
    day_of_week (days_to_ymd n).1 (days_to_ymd n).2.1 (days_to_ymd n).2.2
      = (n + 3) % 7 := by
  rw [day_of_week_eq, ymd_to_days_days_to_ymd]

/-- The three branches of `adjust_for_weekend`. -/
theorem adjust_cases (y m d : Int) :
    (day_of_week y m d ≠ 5 ∧ day_of_week y m d ≠ 6 ∧
      adjust_for_weekend y m d = (y, m, d)) ∨
    (day_of_week y m d = 5 ∧
      adjust_for_weekend y m d = days_to_ymd (ymd_to_days y m d - 1)) ∨
    (day_of_week y m d = 6 ∧
      adjust_for_weekend y m d = days_to_ymd (ymd_to_days y m d - 2)) := by
  by_cases h5 : day_of_week y m d = 5
  · refine Or.inr (Or.inl ⟨h5, ?_⟩)
    simp only [adjust_for_weekend, h5]
    norm_num
  · by_cases h6 : day_of_week y m d = 6
    · refine Or.inr (Or.inr ⟨h6, ?_⟩)
      simp only [adjust_for_weekend, h6]
      norm_num
    · refine Or.inl ⟨h5, h6, ?_⟩
      simp only [adjust_for_weekend, if_neg h5, if_neg h6]
      norm_num

/-- The date returned by `adjust_for_weekend` never has its weekday on
Saturday (5) or Sunday (6). -/
theorem adjust_for_weekend_weekday (y m d : Int) :
    day_of_week (adjust_for_weekend y m d).1 (adjust_for_weekend y m d).2.1
      (adjust_for_weekend y m d).2.2 ≤ 4 := by
  have hr := day_of_week_range y m d
  rcases adjust_cases y m d with ⟨ha, hb, heq⟩ | ⟨ha, heq⟩ | ⟨ha, heq⟩
  · rw [heq]
    dsimp only
    omega
  · rw [heq, day_of_week_days_to_ymd]
    rw [day_of_week_eq] at ha
    omega
  · rw [heq, day_of_week_days_to_ymd]
    rw [day_of_week_eq] at ha
    omega

/-- Facts about the March-based month encoding used by the conversion pair,
for a valid calendar date. -/
theorem month_encode (y m d mp : Int) (hv : isValidDate y m d)
    (hmp : mp = if 2 < m then m - 3 else m + 9) :
    0 ≤ mp ∧ mp ≤ 11 ∧ 0 ≤ monthStart mp + d - 1 ∧
    (5 * (monthStart mp + d - 1) + 2) / 153 = mp ∧
    (if mp < 10 then mp + 3 else mp - 9) = m ∧
    (monthStart mp + d - 1 ≤ 364 ∨
      (m = 2 ∧ d = 29 ∧ monthStart mp + d - 1 = 365 ∧ isLeapYear y)) := by
  obtain ⟨h1, h2, h3, h4⟩ := hv
  unfold daysInMonth at h4
  unfold monthStart
  interval_cases m <;> norm_num at hmp h4 <;> subst hmp
  all_goals try exact ⟨by norm_num, by norm_num, by omega, by omega, by norm_num,
    Or.inl (by omega)⟩
  -- remaining goal: February
  refine ⟨by norm_num, by norm_num, by omega, by omega, by norm_num, ?_⟩
  rcases lt_or_ge d 29 with hd | hd
  · exact Or.inl (by omega)
  · by_cases hy : isLeapYear y
    · exact Or.inr ⟨rfl, by omega, by omega, hy⟩
    · rw [if_neg hy] at h4
      exact absurd rfl (by omega : ¬ (2 : Int) = 2)

/-- A leap civil year makes its (March-based) year-of-era 366 days long. -/
theorem era_of_leap (era yoe yy : Int) (h : yy = era * 400 + yoe + 1) (h0 : 0 ≤ yoe)
    (h1 : yoe ≤ 399) (hl : isLeapYear yy) : eraEnd yoe - eraStart yoe = 365 := by
  unfold isLeapYear at hl
  unfold eraEnd eraStart
  rcases hl with ⟨ha, hb⟩ | hc
  · split
    · omega
    · omega
  · split
    · omega
    · omega

/-- C5: for every valid proleptic-Gregorian date, including negative years
and all leap-year cases under the 400/100/4-year rules, converting the date
through `ymd_to_days` and back through `days_to_ymd` is the identity. -/
theorem ymd_roundtrip_valid (y m d : Int) (hv : isValidDate y m d) :
    days_to_ymd (ymd_to_days y m d) = (y, m, d) := by
  have hm1 : 1 ≤ m := hv.1
  have hm2 : m ≤ 12 := hv.2.1
  set mpf := if 2 < m then m - 3 else m + 9 with hmpf
  obtain ⟨e0, e11, edoy0, erec, eback, eor⟩ := month_encode y m d mpf hv hmpf
  set yp := if m ≤ 2 then y - 1 else y with hyp
  set eraF := yp / 400 with heraF
  set yoeF := yp - eraF * 400 with hyoeF
  have hyb : 0 ≤ yoeF ∧ yoeF ≤ 399 := by rw [hyoeF, heraF]; omega
  have hcf := ymd_to_days_closed y m d hm1 hm2
  rw [← hyp, ← hmpf] at hcf
  have hsplit : yearDays yp = eraF * 146097 + eraStart yoeF := by
    rw [show yp = yoeF + eraF * 400 by omega]
    exact yearDays_split eraF yoeF hyb.1 hyb.2
  set doyF := monthStart mpf + d - 1 with hdoyF
  have hdoyFle : doyF ≤ eraEnd yoeF - eraStart yoeF := by
    rcases eor with hle | ⟨hmeq, hd29, hdoy365, hleap⟩
    · have := eraLen hyb.1 hyb.2
      omega
    · have hypm : yp = y - 1 := by rw [hyp, if_pos (by omega)]
      have hyy : y = eraF * 400 + yoeF + 1 := by omega
      have := era_of_leap eraF yoeF y hyy hyb.1 hyb.2 hleap
      omega
  obtain ⟨era, doe, yoe, doy, mp, h1, h2, h3, h4, h5, h6, h7, h8, h9, h10, h11,
    h12, h13, h14, hout⟩ := days_to_ymd_structure (ymd_to_days y m d)
  have hstart0 : 0 ≤ eraStart yoeF := eraStart_nonneg hyb.1
  have hendle : eraEnd yoeF ≤ 146096 := eraEnd_le hyb.1 hyb.2
  have hn : ymd_to_days y m d + 719468 = eraF * 146097 + (eraStart yoeF + doyF) := by
    rw [hcf, hsplit]
    ring
  have heq1 : era = eraF ∧ doe = eraStart yoeF + doyF := by omega
  rw [heq1.2] at h9
  have hyoe : yoe = yoeF := by
    rw [h4, heq1.2]
    exact yoeRec_interval hyb.1 hyb.2 (by omega) (by omega)
  rw [hyoe] at h9
  have hdoy : doy = doyF := by omega
  have hmp : mp = mpf := by
    rw [h12, hdoy, hdoyF]
    exact erec
  rw [hout, heq1.1, hyoe, hmp, hdoy]
  simp only [Prod.mk.injEq]
  refine ⟨?_, eback, by omega⟩
  rcases le_or_lt m 2 with hle | hlt
  · have hc : ¬ mpf < 10 := by rw [hmpf, if_neg (by omega)]; omega
    rw [if_neg hc]
    have hypm : yp = y - 1 := by rw [hyp, if_pos hle]
    omega
  · have hc : mpf < 10 := by rw [hmpf, if_pos hlt]; omega
    rw [if_pos hc]
    have hypm : yp = y := by rw [hyp, if_neg (by omega)]
    omega

/-- Closed witness for the round-trip at a concrete leap date in a negative
year. -/
theorem ymd_roundtrip_valid_witness :
    isValidDate (-4) 2 29 ∧ days_to_ymd (ymd_to_days (-4) 2 29) = (-4, 2, 29) :=
  ⟨by decide, ymd_roundtrip_valid (-4) 2 29 (by decide)⟩

/-- C9: `adjust_for_weekend` is idempotent — applying it twice to a valid
date gives the same result as applying it once. -/
theorem adjust_for_weekend_idempotent (y m d : Int) (hv : isValidDate y m d) :
    adjust_for_weekend (adjust_for_weekend y m d).1 (adjust_for_weekend y m d).2.1
      (adjust_for_weekend y m d).2.2 = adjust_for_weekend y m d := by
  have hw := adjust_for_weekend_weekday y m d
  set a := adjust_for_weekend y m d with ha
  rcases adjust_cases a.1 a.2.1 a.2.2 with ⟨h5, h6, heq⟩ | ⟨h5, heq⟩ | ⟨h6, heq⟩
  · rw [heq]
  · exact absurd h5 (by omega)
  · exact absurd h6 (by omega)

/-- Closed witness for idempotence at 2026-03-01 (a Sunday, so the first
application really moves the date). -/
theorem adjust_for_weekend_idempotent_witness :
    isValidDate 2026 3 1 ∧
    adjust_for_weekend (adjust_for_weekend 2026 3 1).1 (adjust_for_weekend 2026 3 1).2.1
      (adjust_for_weekend 2026 3 1).2.2 = adjust_for_weekend 2026 3 1 :=
  ⟨by decide, adjust_for_weekend_idempotent 2026 3 1 (by decide)⟩

/-- Both branches of `cycle_start_date` return a weekend-adjusted date. -/
theorem cycle_start_date_cases (rd y m d : Int) :
    cycle_start_date rd (y, m, d) = adjust_for_weekend y m rd ∨
    cycle_start_date rd (y, m, d)
      = adjust_for_weekend (if m = 1 then y - 1 else y) (if m = 1 then 12 else m - 1)
          rd := by
  simp only [cycle_start_date]
  split
  · left
    simp
  · right
    by_cases hm : m = 1 <;> simp [hm]

/-- C4: for every renewal day in 1..31 and every valid reference date, the
date returned by `cycle_start_date` never falls on Saturday (5) or
Sunday (6). -/
theorem cycle_start_weekday (rd y m d : Int) (h1 : 1 ≤ rd) (h2 : rd ≤ 31)
    (hv : isValidDate y m d) :
    day_of_week (cycle_start_date rd (y, m, d)).1 (cycle_start_date rd (y, m, d)).2.1
      (cycle_start_date rd (y, m, d)).2.2 ≠ 5 ∧
    day_of_week (cycle_start_date rd (y, m, d)).1 (cycle_start_date rd (y, m, d)).2.1
      (cycle_start_date rd (y, m, d)).2.2 ≠ 6 := by
  rcases cycle_start_date_cases rd y m d with heq | heq
  · rw [heq]
    have h := adjust_for_weekend_weekday y m rd
    constructor <;> omega
  · rw [heq]
    have h := adjust_for_weekend_weekday (if m = 1 then y - 1 else y)
      (if m = 1 then 12 else m - 1) rd
    constructor <;> omega

/-- Closed witness for the weekday invariant: renewal day 15 viewed from
2026-02-19 (the cycle start 2026-02-13 is a Friday). -/
theorem cycle_start_weekday_witness :
    (1 : Int) ≤ 15 ∧ (15 : Int) ≤ 31 ∧ isValidDate 2026 2 19 ∧
    day_of_week (cycle_start_date 15 (2026, 2, 19)).1
      (cycle_start_date 15 (2026, 2, 19)).2.1
      (cycle_start_date 15 (2026, 2, 19)).2.2 ≠ 5 ∧
    day_of_week (cycle_start_date 15 (2026, 2, 19)).1
      (cycle_start_date 15 (2026, 2, 19)).2.1
      (cycle_start_date 15 (2026, 2, 19)).2.2 ≠ 6 :=
  ⟨by norm_num, by norm_num, by decide,
    (cycle_start_weekday 15 2026 2 19 (by norm_num) (by norm_num) (by decide)).1,
    (cycle_start_weekday 15 2026 2 19 (by norm_num) (by norm_num) (by decide)).2⟩

/-- C1: the implemented cycle-start resolution coincides with the resolution
algorithm as worded in the specification, for every renewal day in 1..31 and
every reference date. -/
theorem cycle_start_refines_spec (rd y m d : Int) (h1 : 1 ≤ rd) (h2 : rd ≤ 31) :
    cycle_start_date rd (y, m, d) = cycleStartSpec rd (y, m, d) := by
  simp only [cycle_start_date, cycleStartSpec]
  by_cases hm : m = 1 <;> simp [hm]

/-- Closed witness for the refinement at renewal day 1, reference 2026-03-05. -/
theorem cycle_start_refines_spec_witness :
    (1 : Int) ≤ 1 ∧ (1 : Int) ≤ 31 ∧
    cycle_start_date 1 (2026, 3, 5) = cycleStartSpec 1 (2026, 3, 5) :=
  ⟨le_refl 1, by norm_num, cycle_start_refines_spec 1 2026 3 5 (le_refl 1) (by norm_num)⟩

/-- C6: with renewal day 1 and reference date 2026-03-05, the cycle start is
2026-01-30: 2026-03-01 is a Sunday and adjusts into February (Friday the
27th), so the resolver falls back to February's renewal date 2026-02-01, also
a Sunday, which adjusts to Friday 2026-01-30. -/
theorem cycle_start_march_scenario :
    cycle_start_date 1 (2026, 3, 5) = (2026, 1, 30) ∧
    day_of_week 2026 3 1 = 6 ∧
    adjust_for_weekend 2026 3 1 = (2026, 2, 27) ∧
    day_of_week 2026 2 27 = 4 ∧
    day_of_week 2026 2 1 = 6 ∧
    adjust_for_weekend 2026 2 1 = (2026, 1, 30) ∧
    day_of_week 2026 1 30 = 4 := by
  refine ⟨by decide, by decide, by decide, by decide, by decide, by decide, by decide⟩

theorem daysInMonth_le (y m : Int) : daysInMonth y m ≤ 31 := by
  unfold daysInMonth
  split_ifs <;> norm_num

theorem yearDays_step (y : Int) :
    365 ≤ yearDays y - yearDays (y - 1) ∧ yearDays y - yearDays (y - 1) ≤ 366 := by
  unfold yearDays
  omega

theorem yearDays_leap (y : Int) (h : isLeapYear y) :
    yearDays y - yearDays (y - 1) = 366 := by
  unfold isLeapYear at h
  unfold yearDays
  rcases h with ⟨h1, h2⟩ | h1 <;> omega

theorem yearDays_mono {a b : Int} (h : a ≤ b) : yearDays a ≤ yearDays b := by
  unfold yearDays
  omega

theorem monthStart_mono {a b : Int} (h : a ≤ b) : monthStart a ≤ monthStart b := by
  unfold monthStart
  omega

theorem monthStart_nonneg {a : Int} (h : 0 ≤ a) : 0 ≤ monthStart a := by
  unfold monthStart
  omega

theorem month_len (y m : Int) (h3 : 3 ≤ m) (h11 : m ≤ 11) :
    monthStart (m - 2) = monthStart (m - 3) + daysInMonth y m := by
  interval_cases m <;> norm_num [monthStart, daysInMonth]

/-- Any valid date of civil year `y` has its day number inside the year's
day-number range. -/
theorem ymd_year_bounds (y m d : Int) (hv : isValidDate y m d) :
    yearDays (y - 1) + 306 ≤ ymd_to_days y m d + 719468 ∧
    ymd_to_days y m d + 719468 ≤ yearDays y + 305 := by
  obtain ⟨hm1, hm2, hd1, hd2⟩ := hv
  have hd31 : d ≤ 31 := le_trans hd2 (daysInMonth_le _ _)
  have hstep := yearDays_step y
  rw [ymd_to_days_closed y m d hm1 hm2]
  rcases le_or_lt m 2 with hm | hm
  · rw [if_pos hm, if_neg (by omega)]
    have h2 : m = 1 ∨ m = 2 := by omega
    rcases h2 with h | h <;> subst h
    · have hv1 : monthStart (1 + 9) = 306 := by norm_num [monthStart]
      omega
    · have hd29 : d ≤ 29 := by
        have : daysInMonth y 2 ≤ 29 := by
          by_cases hy : isLeapYear y <;> norm_num [daysInMonth, hy]
        omega
      have hv2 : monthStart (2 + 9) = 337 := by norm_num [monthStart]
      omega
  · rw [if_neg (by omega), if_pos hm]
    have hms : monthStart (m - 3) ≤ monthStart 9 := monthStart_mono (by omega)
    have hms0 : 0 ≤ monthStart (m - 3) := monthStart_nonneg (by omega)
    have h275 : monthStart 9 = 275 := by norm_num [monthStart]
    omega

/-- The day number is strictly monotone in the lexicographic order on valid
dates. -/
theorem ymd_lt_of_lex (y1 m1 d1 y2 m2 d2 : Int) (hv1 : isValidDate y1 m1 d1)
    (hv2 : isValidDate y2 m2 d2)
    (hlt : y1 < y2 ∨ (y1 = y2 ∧ (m1 < m2 ∨ (m1 = m2 ∧ d1 < d2)))) :
    ymd_to_days y1 m1 d1 < ymd_to_days y2 m2 d2 := by
  have hm11 : 1 ≤ m1 := hv1.1
  have hm12 : m1 ≤ 12 := hv1.2.1
  have hd11 : 1 ≤ d1 := hv1.2.2.1
  have hd12 : d1 ≤ daysInMonth y1 m1 := hv1.2.2.2
  have hm21 : 1 ≤ m2 := hv2.1
  have hm22 : m2 ≤ 12 := hv2.2.1
  have hd21 : 1 ≤ d2 := hv2.2.2.1
  have hd22 : d2 ≤ daysInMonth y2 m2 := hv2.2.2.2
  rcases hlt with hy | ⟨hy, hmd⟩
  · have hb1 := ymd_year_bounds y1 m1 d1 hv1
    have hb2 := ymd_year_bounds y2 m2 d2 hv2
    have hmono : yearDays y1 ≤ yearDays (y2 - 1) := yearDays_mono (by omega)
    omega
  · subst hy
    have hstep := yearDays_step y1
    have hd31 : d1 ≤ 31 := le_trans hd12 (daysInMonth_le _ _)
    rw [ymd_to_days_closed y1 m1 d1 hm11 hm12, ymd_to_days_closed y1 m2 d2 hm21 hm22]
    rcases le_or_lt m1 2 with hc1 | hc1 <;> rcases le_or_lt m2 2 with hc2 | hc2
    · rw [if_pos hc1, if_neg (by omega), if_pos hc2, if_neg (by omega)]
      have hA : monthStart (1 + 9) = 306 := by norm_num [monthStart]
      have hB : monthStart (2 + 9) = 337 := by norm_num [monthStart]
      have h1 : m1 = 1 ∨ m1 = 2 := by omega
      have h2 : m2 = 1 ∨ m2 = 2 := by omega
      rcases h1 with h | h <;> rcases h2 with g | g <;> subst h <;> subst g <;> omega
    · rw [if_pos hc1, if_neg (by omega), if_neg (by omega), if_pos hc2]
      obtain ⟨q0, q11, qd0, qrec, qback, qor⟩ :=
        month_encode y1 m1 d1 (m1 + 9) hv1 (by rw [if_neg (by omega)])
      have hms2 : 0 ≤ monthStart (m2 - 3) := monthStart_nonneg (by omega)
      rcases qor with hle | ⟨hmeq, hdeq, hdoy, hleap⟩
      · omega
      · have hlp := yearDays_leap y1 hleap
        omega
    · exact absurd hmd (by omega)
    · rw [if_neg (by omega), if_pos hc1, if_neg (by omega), if_pos hc2]
      rcases hmd with hmm | ⟨hmm, hdd⟩
      · have hlen := month_len y1 m1 (by omega) (by omega)
        have hmono : monthStart (m1 - 2) ≤ monthStart (m2 - 3) :=
          monthStart_mono (by omega)
        omega
      · subst hmm
        omega

/-- The day number order coincides with the lexicographic order on valid
dates. -/
theorem ymd_le_iff_lex (y1 m1 d1 y2 m2 d2 : Int) (hv1 : isValidDate y1 m1 d1)
    (hv2 : isValidDate y2 m2 d2) :
    (ymd_to_days y1 m1 d1 ≤ ymd_to_days y2 m2 d2) ↔
      (y1 < y2 ∨ (y1 = y2 ∧ (m1 < m2 ∨ (m1 = m2 ∧ d1 ≤ d2)))) := by
  constructor
  · intro h
    by_contra hc
    have hlt : y2 < y1 ∨ (y2 = y1 ∧ (m2 < m1 ∨ (m2 = m1 ∧ d2 < d1))) := by omega
    have := ymd_lt_of_lex y2 m2 d2 y1 m1 d1 hv2 hv1 hlt
    omega
  · intro h
    rcases h with hy | ⟨hy, hmd⟩
    · exact le_of_lt (ymd_lt_of_lex _ _ _ _ _ _ hv1 hv2 (Or.inl hy))
    · rcases hmd with hm | ⟨hm, hd⟩
      · exact le_of_lt (ymd_lt_of_lex _ _ _ _ _ _ hv1 hv2 (Or.inr ⟨hy, Or.inl hm⟩))
      · rcases eq_or_lt_of_le hd with he | hlt2
        · subst hy; subst hm; subst he
          exact le_refl _
        · exact le_of_lt (ymd_lt_of_lex _ _ _ _ _ _ hv1 hv2
            (Or.inr ⟨hy, Or.inr ⟨hm, hlt2⟩⟩))

theorem bytesLe_cons_same (c : Nat) (u v : List Nat) :
    bytesLe (c :: u) (c :: v) = bytesLe u v := by
  simp [bytesLe]

theorem pad4_le (a b : Int) (xs ys : List Nat) (ha0 : 0 ≤ a) (ha1 : a ≤ 9999)
    (hb0 : 0 ≤ b) (hb1 : b ≤ 9999) :
    bytesLe (pad4 a ++ xs) (pad4 b ++ ys)
      = if a < b then true else if b < a then false else bytesLe xs ys := by
  simp only [pad4, List.cons_append, List.nil_append, bytesLe]
  split_ifs <;> first | rfl | (exfalso; omega)

theorem pad2_le (a b : Int) (xs ys : List Nat) (ha0 : 0 ≤ a) (ha1 : a ≤ 99)
    (hb0 : 0 ≤ b) (hb1 : b ≤ 99) :
    bytesLe (pad2 a ++ xs) (pad2 b ++ ys)
      = if a < b then true else if b < a then false else bytesLe xs ys := by
  simp only [pad2, List.cons_append, List.nil_append, bytesLe]
  split_ifs <;> first | rfl | (exfalso; omega)

theorem pad2_le_nil (a b : Int) (ha0 : 0 ≤ a) (ha1 : a ≤ 99)
    (hb0 : 0 ≤ b) (hb1 : b ≤ 99) :
    bytesLe (pad2 a) (pad2 b)
      = if a < b then true else if b < a then false else true := by
  have h := pad2_le a b [] [] ha0 ha1 hb0 hb1
  simp only [List.append_nil] at h
  rw [h]
  simp [bytesLe]

/-- Byte-wise order of the zero-padded renderings coincides with the
lexicographic order, for valid dates with four-digit years. -/
theorem fmtDate_le_iff_lex (y1 m1 d1 y2 m2 d2 : Int)
    (hv1 : isValidDate y1 m1 d1) (hv2 : isValidDate y2 m2 d2)
    (hy1a : 0 ≤ y1) (hy1b : y1 ≤ 9999) (hy2a : 0 ≤ y2) (hy2b : y2 ≤ 9999) :
    (bytesLe (fmtDate (y1, m1, d1)) (fmtDate (y2, m2, d2)) = true) ↔
      (y1 < y2 ∨ (y1 = y2 ∧ (m1 < m2 ∨ (m1 = m2 ∧ d1 ≤ d2)))) := by
  have hm11 : 1 ≤ m1 := hv1.1
  have hm12 : m1 ≤ 12 := hv1.2.1
  have hd11 : 1 ≤ d1 := hv1.2.2.1
  have hd12 : d1 ≤ 31 := le_trans hv1.2.2.2 (daysInMonth_le _ _)
  have hm21 : 1 ≤ m2 := hv2.1
  have hm22 : m2 ≤ 12 := hv2.2.1
  have hd21 : 1 ≤ d2 := hv2.2.2.1
  have hd22 : d2 ≤ 31 := le_trans hv2.2.2.2 (daysInMonth_le _ _)
  simp only [fmtDate, List.append_assoc, List.singleton_append, List.cons_append,
    List.nil_append]
  rw [pad4_le y1 y2 _ _ hy1a hy1b hy2a hy2b]
  simp only [bytesLe_cons_same, List.nil_append]
  rw [pad2_le m1 m2 _ _ (by omega) (by omega) (by omega) (by omega)]
  simp only [bytesLe_cons_same]
  rw [pad2_le_nil d1 d2 (by omega) (by omega) (by omega) (by omega)]
  split_ifs <;> simp_all <;> omega

/-- Byte-wise order of the rendered dates agrees with day-number
(chronological) order, for valid dates with four-digit years. -/
theorem fmtDate_le_iff_days (y1 m1 d1 y2 m2 d2 : Int)
    (hv1 : isValidDate y1 m1 d1) (hv2 : isValidDate y2 m2 d2)
    (hy1a : 0 ≤ y1) (hy1b : y1 ≤ 9999) (hy2a : 0 ≤ y2) (hy2b : y2 ≤ 9999) :
    (bytesLe (fmtDate (y1, m1, d1)) (fmtDate (y2, m2, d2)) = true) ↔
      ymd_to_days y1 m1 d1 ≤ ymd_to_days y2 m2 d2 :=
  (fmtDate_le_iff_lex y1 m1 d1 y2 m2 d2 hv1 hv2 hy1a hy1b hy2a hy2b).trans
    (ymd_le_iff_lex y1 m1 d1 y2 m2 d2 hv1 hv2).symm

theorem fmtDate_le_iff_days3 (r t : Int × Int × Int)
    (hv1 : isValidDate r.1 r.2.1 r.2.2) (hv2 : isValidDate t.1 t.2.1 t.2.2)
    (hy1a : 0 ≤ r.1) (hy1b : r.1 ≤ 9999) (hy2a : 0 ≤ t.1) (hy2b : t.1 ≤ 9999) :
    (bytesLe (fmtDate r) (fmtDate t) = true) ↔
      ymd_to_days r.1 r.2.1 r.2.2 ≤ ymd_to_days t.1 t.2.1 t.2.2 := by
  obtain ⟨a, b, c⟩ := r
  obtain ⟨d, e, f⟩ := t
  exact fmtDate_le_iff_days a b c d e f hv1 hv2 hy1a hy1b hy2a hy2b

/-- C8: the cycle total is the sum of the card's recorded amounts dated on
or after the cycle start: it is 0 when no record matches; the on-or-after
test is the byte-wise comparison of the zero-padded date strings, which
agrees with chronological (day-number) order on four-digit-year dates; hence
for well-formed stored dates the sum ranges exactly over the records that
are chronologically on or after the cycle start. -/
theorem sum_spending_chronological :
    (∀ (sp : List Spending) (cardId : Int) (since : List Nat),
      (∀ s ∈ sp, ¬ (s.card_id = cardId ∧ bytesLe since s.date = true)) →
      sumSpending sp cardId since = 0) ∧
    (∀ r t : Int × Int × Int,
      isValidDate r.1 r.2.1 r.2.2 → isValidDate t.1 t.2.1 t.2.2 →
      0 ≤ r.1 → r.1 ≤ 9999 → 0 ≤ t.1 → t.1 ≤ 9999 →
      (bytesLe (fmtDate r) (fmtDate t) = true ↔
        ymd_to_days r.1 r.2.1 r.2.2 ≤ ymd_to_days t.1 t.2.1 t.2.2)) ∧
    (∀ (sp : List Spending) (cardId : Int) (r : Int × Int × Int)
      (dateOf : Spending → Int × Int × Int),
      isValidDate r.1 r.2.1 r.2.2 → 0 ≤ r.1 → r.1 ≤ 9999 →
      (∀ s ∈ sp, s.date = fmtDate (dateOf s) ∧
        isValidDate (dateOf s).1 (dateOf s).2.1 (dateOf s).2.2 ∧
        0 ≤ (dateOf s).1 ∧ (dateOf s).1 ≤ 9999) →
      sumSpending sp cardId (fmtDate r) =
        ((sp.filter (fun s => s.card_id == cardId &&
            decide (ymd_to_days r.1 r.2.1 r.2.2 ≤
              ymd_to_days (dateOf s).1 (dateOf s).2.1 (dateOf s).2.2))).map
          (fun s => s.amount)).sum) := by
  refine ⟨?_, ?_, ?_⟩
  · intro sp cardId since h
    unfold sumSpending
    have hnil : sp.filter (fun s => s.card_id == cardId && bytesLe since s.date) = [] := by
      rw [List.filter_eq_nil_iff]
      intro s hs
      have hh := h s hs
      simp only [Bool.and_eq_true, beq_iff_eq]
      exact hh
    rw [hnil]
    simp
  · intro r t hv1 hv2 h1 h2 h3 h4
    exact fmtDate_le_iff_days3 r t hv1 hv2 h1 h2 h3 h4
  · intro sp cardId r dateOf hvr hr0 hr1 hall
    unfold sumSpending
    have hf : sp.filter (fun s => s.card_id == cardId && bytesLe (fmtDate r) s.date)
        = sp.filter (fun s => s.card_id == cardId &&
            decide (ymd_to_days r.1 r.2.1 r.2.2 ≤
              ymd_to_days (dateOf s).1 (dateOf s).2.1 (dateOf s).2.2)) := by
      apply List.filter_congr
      intro s hs
      obtain ⟨hd, hv, h0, h1⟩ := hall s hs
      simp only [hd]
      congr 1
      rw [Bool.eq_iff_iff, decide_eq_true_eq]
      exact fmtDate_le_iff_days3 r (dateOf s) hvr hv hr0 hr1 h0 h1
    rw [hf]

/-- Closed witness: empty store sums to 0; byte order agrees with
chronological order at 2026-02-13 / 2026-02-14; the sum over a one-record
store equals the chronological-filter sum. -/
theorem sum_spending_chronological_witness :
    sumSpending [] 1 (fmtDate (2026, 2, 13)) = 0 ∧
    (bytesLe (fmtDate (2026, 2, 13)) (fmtDate (2026, 2, 14)) = true ↔
      ymd_to_days 2026 2 13 ≤ ymd_to_days 2026 2 14) ∧
    sumSpending [⟨1, 1, 50, [], fmtDate (2026, 2, 14), 200⟩] 1 (fmtDate (2026, 2, 13)) =
      (([(⟨1, 1, 50, [], fmtDate (2026, 2, 14), 200⟩ : Spending)].filter
          (fun s => s.card_id == 1 &&
            decide (ymd_to_days 2026 2 13 ≤ ymd_to_days 2026 2 14))).map
        (fun s => s.amount)).sum := by
  refine ⟨?_, ?_, ?_⟩
  · exact sum_spending_chronological.1 [] 1 (fmtDate (2026, 2, 13))
      (by intro s hs; simp at hs)
  · exact sum_spending_chronological.2.1 (2026, 2, 13) (2026, 2, 14)
      (by decide) (by decide) (by norm_num) (by norm_num) (by norm_num) (by norm_num)
  · exact sum_spending_chronological.2.2
      [⟨1, 1, 50, [], fmtDate (2026, 2, 14), 200⟩] 1 (2026, 2, 13)
      (fun _ => (2026, 2, 14)) (by decide) (by norm_num) (by norm_num)
      (by
        intro s hs
        simp only [List.mem_singleton] at hs
        subst hs
        exact ⟨rfl, by decide, by norm_num, by norm_num⟩)

theorem processCandidates_storeOfDb (db : DB) (amount : ℚ) (date : Int × Int × Int)
    (cs : List CandidateCard) :
    processCandidates (storeOfDb db) amount date cs =
      Except.ok (cs.map (fun card => mkRecommendation card amount
        (sumSpending db.spending card.id
          (fmtDate (cycle_start_date card.statement_renewal_date date))))) := by
  induction cs with
  | nil => rfl
  | cons card rest ih =>
    show Except.bind (processCandidates (storeOfDb db) amount date rest)
      (fun others => pure (mkRecommendation card amount
        (sumSpending db.spending card.id
          (fmtDate (cycle_start_date card.statement_renewal_date date))) :: others)) = _
    rw [ih]
    rfl

theorem bestCardDb_eq (db : DB) (category payment_category : List Nat) (amount : ℚ)
    (date : Int × Int × Int) :
    bestCardDb db category payment_category amount date =
      ((queryCandidates db category payment_category).map
        (fun card => mkRecommendation card amount
          (sumSpending db.spending card.id
            (fmtDate (cycle_start_date card.statement_renewal_date date))))).mergeSort
        recLe := by
  have h1 : best_card_for_category (storeOfDb db) category payment_category amount date
      = Except.ok (((queryCandidates db category payment_category).map
          (fun card => mkRecommendation card amount
            (sumSpending db.spending card.id
              (fmtDate (cycle_start_date card.statement_renewal_date date))))).mergeSort
          recLe) := by
    show Except.bind (processCandidates (storeOfDb db) amount date
        (queryCandidates db category payment_category))
      (fun results => pure (results.mergeSort recLe)) = _
    rw [processCandidates_storeOfDb]
    rfl
  unfold bestCardDb
  rw [h1]

theorem recLe_trans (a b c : CardRecommendation) (hab : recLe a b = true)
    (hbc : recLe b c = true) : recLe a c = true := by
  unfold recLe at *
  cases ha : a.eligible <;> cases hb : b.eligible <;> cases hc : c.eligible <;>
    simp_all <;> linarith

theorem recLe_total (a b : CardRecommendation) : (recLe a b || recLe b a) = true := by
  unfold recLe
  cases ha : a.eligible <;> cases hb : b.eligible <;> simp_all
  · exact le_total _ _
  · exact le_total _ _

theorem recOrdered_of_recLe (a b : CardRecommendation) (h : recLe a b = true) :
    recOrdered a b := by
  unfold recLe at h
  unfold recOrdered
  by_cases he : a.eligible = b.eligible
  · rw [if_pos he] at h
    exact Or.inr ⟨he, of_decide_eq_true h⟩
  · rw [if_neg he] at h
    refine Or.inl ⟨h, ?_⟩
    cases hb : b.eligible
    · rfl
    · exact absurd (h.trans hb.symm) he

theorem recLe_of_recTie (a b : CardRecommendation) (h : recTie a b) :
    recLe a b = true := by
  obtain ⟨he, hr⟩ := h
  unfold recLe
  rw [if_pos he]
  exact decide_eq_true (le_of_eq hr.symm)

theorem mkRecommendation_eligibility (card : CandidateCard) (amount total : ℚ) :
    ((mkRecommendation card amount total).eligible,
     (mkRecommendation card amount total).reason)
      = eligibilitySpec amount total card.max_reward_limit card.min_spend := by
  unfold mkRecommendation eligibilitySpec
  cases hml : card.max_reward_limit with
  | none =>
    cases hms : card.min_spend with
    | none => simp
    | some mn =>
      rcases le_or_lt mn total with h | h
      · simp [decide_eq_true h, not_lt.mpr h]
      · simp [decide_eq_false (not_le.mpr h), h]
  | some limit =>
    have hmx : max (limit - total) 0 = max 0 (limit - total) := max_comm _ _
    rcases lt_or_ge (max (limit - total) 0) amount with hx | hx
    · have hx2 : max 0 (limit - total) < amount := hmx ▸ hx
      cases hms : card.min_spend <;> simp [decide_eq_true hx, hx2, hmx]
    · have hx2 : ¬ max 0 (limit - total) < amount := by rw [← hmx]; exact not_lt.mpr hx
      cases hms : card.min_spend with
      | none =>
        simp [decide_eq_false (not_lt.mpr hx), hx2]
        intro hlt
        rcases max_cases (limit - total) 0 with ⟨hm1, hm2⟩ | ⟨hm1, hm2⟩ <;> linarith
      | some mn =>
        rcases le_or_lt mn total with h | h
        · simp [decide_eq_false (not_lt.mpr hx), hx2, decide_eq_true h, not_lt.mpr h]
          intro hlt
          rcases max_cases (limit - total) 0 with ⟨hm1, hm2⟩ | ⟨hm1, hm2⟩ <;> linarith
        · simp [decide_eq_false (not_lt.mpr hx), hx2, decide_eq_false (not_le.mpr h), h]
          intro hlt
          rcases max_cases (limit - total) 0 with ⟨hm1, hm2⟩ | ⟨hm1, hm2⟩ <;> linarith

/-- C2: each recommendation's eligibility and reason follow the
specification's priority order — reward-limit check first (reporting the
remaining headroom max(0, limit − cycleTotal)), else minimum-spend check
(reporting the shortfall minimum − cycleTotal), else eligible — and the
cycle total fed into the decision is the sum of already-recorded spending
only, so the prospective transaction amount never contributes to it. -/
theorem eligibility_priority_order :
    (∀ (card : CandidateCard) (amount total : ℚ),
      ((mkRecommendation card amount total).eligible,
       (mkRecommendation card amount total).reason)
        = eligibilitySpec amount total card.max_reward_limit card.min_spend) ∧
    (∀ (db : DB) (category payment_category : List Nat) (amount : ℚ)
      (date : Int × Int × Int) (r : CardRecommendation),
      r ∈ bestCardDb db category payment_category amount date →
      ∃ card, card ∈ queryCandidates db category payment_category ∧
        r = mkRecommendation card amount
          (sumSpending db.spending card.id
            (fmtDate (cycle_start_date card.statement_renewal_date date))) ∧
        (r.eligible, r.reason) = eligibilitySpec amount
          (sumSpending db.spending card.id
            (fmtDate (cycle_start_date card.statement_renewal_date date)))
          card.max_reward_limit card.min_spend) := by
  refine ⟨mkRecommendation_eligibility, ?_⟩
  intro db category payment_category amount date r hr
  rw [bestCardDb_eq] at hr
  have hperm := List.mergeSort_perm
    ((queryCandidates db category payment_category).map
      (fun card => mkRecommendation card amount
        (sumSpending db.spending card.id
          (fmtDate (cycle_start_date card.statement_renewal_date date))))) recLe
  have hmem := hperm.mem_iff.mp hr
  obtain ⟨card, hcard, hreq⟩ := List.mem_map.mp hmem
  refine ⟨card, hcard, hreq.symm, ?_⟩
  rw [← hreq]
  exact mkRecommendation_eligibility card amount _

/-- C3: the recommendation list is sorted with every eligible candidate
before every ineligible one and by effective rate descending within each
group; it is a permutation of the per-candidate results; ties on both keys
keep their pre-sort relative order (stable sort); and on the three-card
scenario (rates 3 eligible, 4 eligible, 2 ineligible by minimum spend) the
ranked output is [4, 3, 2] with eligibility outranking raw rate. -/
theorem ranking_order :
    (∀ (db : DB) (category payment_category : List Nat) (amount : ℚ)
      (date : Int × Int × Int),
      (bestCardDb db category payment_category amount date).Pairwise recOrdered ∧
      (bestCardDb db category payment_category amount date).Perm
        ((queryCandidates db category payment_category).map
          (fun card => mkRecommendation card amount
            (sumSpending db.spending card.id
              (fmtDate (cycle_start_date card.statement_renewal_date date))))) ∧
      (∀ x y : CardRecommendation, recTie x y →
        [x, y].Sublist ((queryCandidates db category payment_category).map
          (fun card => mkRecommendation card amount
            (sumSpending db.spending card.id
              (fmtDate (cycle_start_date card.statement_renewal_date date))))) →
        [x, y].Sublist (bestCardDb db category payment_category amount date))) ∧
    ((bestCardDb
        ⟨[⟨1, "A", [[100]], [[99]], 3, none, 1, 1, none, none⟩,
          ⟨2, "B", [[100]], [[99]], 4, none, 1, 1, none, none⟩,
          ⟨3, "C", [[100]], [[99]], 2, none, 1, 1, none, some 500⟩], []⟩
        [100] [99] 10 (2026, 2, 19)).map
      (fun r => (r.card_name, r.effective_rate, r.eligible))
      = [("B", 4, true), ("A", 3, true), ("C", 2, false)]) := by
  constructor
  · intro db category payment_category amount date
    rw [bestCardDb_eq]
    refine ⟨?_, List.mergeSort_perm _ recLe, ?_⟩
    · have hs := List.sorted_mergeSort recLe_trans recLe_total
        ((queryCandidates db category payment_category).map
          (fun card => mkRecommendation card amount
            (sumSpending db.spending card.id
              (fmtDate (cycle_start_date card.statement_renewal_date date)))))
      exact List.Pairwise.imp (fun h => recOrdered_of_recLe _ _ h) hs
    · intro x y htie hsub
      exact List.pair_sublist_mergeSort recLe_trans recLe_total
        (recLe_of_recTie x y htie) hsub
  · rw [bestCardDb_eq]
    norm_num [queryCandidates, lowerAscii, mkRecommendation, sumSpending,
      calculate_miles, Rat.floor, recLe, List.mergeSort, List.merge,
      List.filter, List.any]

/-- C7: the reward of a transaction is floor(amount / blockSize) × baseRate
(fractional blocks earn nothing), with reward(42.50, 5, 10) = 80 and
reward(3, 5, 10) = 0; the ranking engine's per-transaction miles and the
miles stored by `add_spending` both use exactly `calculate_miles`. -/
theorem reward_formula :
    (∀ amount block_size rate : ℚ, 0 < block_size →
      calculate_miles amount block_size rate
        = (Rat.floor (amount / block_size) : ℚ) * rate) ∧
    calculate_miles 42.50 5 10 = 80 ∧
    calculate_miles 3 5 10 = 0 ∧
    (∀ (card : CandidateCard) (amount total : ℚ),
      (mkRecommendation card amount total).miles_earned
        = calculate_miles amount card.block_size card.miles_per_dollar) ∧
    (∀ (db : DB) (card_id : Int) (amount : ℚ) (category date : List Nat)
      (db2 : DB) (newId : Int) (miles : ℚ) (c : Card),
      db.cards.find? (fun x => x.id == card_id) = some c →
      add_spending db card_id amount category date = some (db2, newId, miles) →
      miles = calculate_miles amount c.block_size c.miles_per_dollar ∧
      ∃ rec : Spending, db2.spending = db.spending ++ [rec] ∧
        rec.miles_earned = calculate_miles amount c.block_size c.miles_per_dollar) := by
  refine ⟨fun _ _ _ _ => rfl, by norm_num [calculate_miles, Rat.floor],
    by norm_num [calculate_miles, Rat.floor], fun _ _ _ => rfl, ?_⟩
  intro db card_id amount category date db2 newId miles c hfind hadd
  unfold add_spending at hadd
  rw [hfind] at hadd
  simp only [Option.some.injEq, Prod.mk.injEq] at hadd
  obtain ⟨h1, h2, h3⟩ := hadd
  refine ⟨h3.symm, ⟨⟨(db.spending.length : Int) + 1, card_id, amount, category, date,
    calculate_miles amount c.block_size c.miles_per_dollar⟩, ?_, rfl⟩⟩
  rw [← h1]

/-- Closed witness for the reward formula, including a concrete
`add_spending` run. -/
theorem reward_formula_witness :
    ((0 : ℚ) < 5 ∧ calculate_miles 42.50 5 10
      = (Rat.floor ((42.50 : ℚ) / 5) : ℚ) * 10) ∧
    (80 = calculate_miles 42.50 5 10 ∧
      ∃ rec : Spending,
        (⟨[⟨1, "A", [[100]], [[99]], 10, none, 5, 1, none, none⟩],
          [⟨1, 1, 42.50, [100], [50], 80⟩]⟩ : DB).spending = [] ++ [rec] ∧
        rec.miles_earned = calculate_miles 42.50 5 10) := by
  constructor
  · exact ⟨by norm_num, reward_formula.1 42.50 5 10 (by norm_num)⟩
  · refine reward_formula.2.2.2.2
      ⟨[⟨1, "A", [[100]], [[99]], 10, none, 5, 1, none, none⟩], []⟩ 1 42.50 [100] [50]
      ⟨[⟨1, "A", [[100]], [[99]], 10, none, 5, 1, none, none⟩],
        [⟨1, 1, 42.50, [100], [50], 80⟩]⟩ 1 80
      ⟨1, "A", [[100]], [[99]], 10, none, 5, 1, none, none⟩ rfl ?_
    unfold add_spending
    norm_num [calculate_miles, Rat.floor]

/-- C10: with zero matching cards the recommendation computation succeeds
with an empty list; a failing candidate query, or a failing per-card
aggregate query at any position of the loop, makes the whole request fail
with that very error, and no recommendation list is produced. -/
theorem failure_semantics :
    ∀ (E : Type) (s : Store E) (category payment_category : List Nat) (amount : ℚ)
      (date : Int × Int × Int),
      (s.queryCandidates category payment_category = Except.ok [] →
        best_card_for_category s category payment_category amount date
          = Except.ok []) ∧
      (∀ e, s.queryCandidates category payment_category = Except.error e →
        best_card_for_category s category payment_category amount date
          = Except.error e) ∧
      (∀ cs e, s.queryCandidates category payment_category = Except.ok cs →
        processCandidates s amount date cs = Except.error e →
        best_card_for_category s category payment_category amount date
          = Except.error e) ∧
      (∀ (card : CandidateCard) (rest : List CandidateCard) (e : E),
        s.querySum card.id (fmtDate (cycle_start_date card.statement_renewal_date date))
          = Except.error e →
        processCandidates s amount date (card :: rest) = Except.error e) := by
  intro E s category payment_category amount date
  refine ⟨?_, ?_, ?_, ?_⟩
  · intro h
    show Except.bind (s.queryCandidates category payment_category)
      (fun candidates => Except.bind (processCandidates s amount date candidates)
        (fun results => pure (results.mergeSort recLe))) = Except.ok []
    rw [h]
    show Except.ok (List.mergeSort [] recLe) = Except.ok []
    rw [List.mergeSort_nil]
  · intro e h
    show Except.bind (s.queryCandidates category payment_category)
      (fun candidates => Except.bind (processCandidates s amount date candidates)
        (fun results => pure (results.mergeSort recLe))) = Except.error e
    rw [h]
    rfl
  · intro cs e h1 h2
    show Except.bind (s.queryCandidates category payment_category)
      (fun candidates => Except.bind (processCandidates s amount date candidates)
        (fun results => pure (results.mergeSort recLe))) = Except.error e
    rw [h1]
    show Except.bind (processCandidates s amount date cs)
      (fun results => pure (results.mergeSort recLe)) = Except.error e
    rw [h2]
    rfl
  · intro card rest e h
    show Except.bind
      (s.querySum card.id (fmtDate (cycle_start_date card.statement_renewal_date date)))
      (fun cycle_total => Except.bind (processCandidates s amount date rest)
        (fun others => pure (mkRecommendation card amount cycle_total :: others)))
      = Except.error e
    rw [h]
    rfl

/-- Closed witness for the failure semantics on concrete stores. -/
theorem failure_semantics_witness :
    best_card_for_category (⟨fun _ _ => Except.ok [], fun _ _ => Except.ok 0⟩ : Store Nat)
      [100] [99] 10 (2026, 1, 1) = Except.ok [] ∧
    best_card_for_category
      (⟨fun _ _ => Except.error 7, fun _ _ => Except.ok 0⟩ : Store Nat)
      [100] [99] 10 (2026, 1, 1) = Except.error 7 ∧
    processCandidates (⟨fun _ _ => Except.ok [], fun _ _ => Except.error 9⟩ : Store Nat)
      10 (2026, 1, 1) [⟨1, "A", 1, 1, 1, none, none, 1⟩] = Except.error 9 ∧
    best_card_for_category
      (⟨fun _ _ => Except.ok [⟨1, "A", 1, 1, 1, none, none, 1⟩],
        fun _ _ => Except.error 9⟩ : Store Nat)
      [100] [99] 10 (2026, 1, 1) = Except.error 9 := by
  refine ⟨?_, ?_, ?_, ?_⟩
  · exact (failure_semantics Nat _ [100] [99] 10 (2026, 1, 1)).1 rfl
  · exact (failure_semantics Nat _ [100] [99] 10 (2026, 1, 1)).2.1 7 rfl
  · exact (failure_semantics Nat _ [100] [99] 10 (2026, 1, 1)).2.2.2
      ⟨1, "A", 1, 1, 1, none, none, 1⟩ [] 9 rfl
  · exact (failure_semantics Nat _ [100] [99] 10 (2026, 1, 1)).2.2.1
      [⟨1, "A", 1, 1, 1, none, none, 1⟩] 9 rfl
      ((failure_semantics Nat _ [100] [99] 10 (2026, 1, 1)).2.2.2
        ⟨1, "A", 1, 1, 1, none, none, 1⟩ [] 9 rfl)

/-- Closed witness for the eligibility/priority claim on a one-card store
with no recorded spending. -/
theorem eligibility_priority_order_witness :
    (((mkRecommendation ⟨1, "A", 3, 1, 3, none, none, 1⟩ 10 0).eligible,
      (mkRecommendation ⟨1, "A", 3, 1, 3, none, none, 1⟩ 10 0).reason)
        = eligibilitySpec 10 0 none none) ∧
    (∃ card, card ∈ queryCandidates
        ⟨[⟨1, "A", [[100]], [[99]], 3, none, 1, 1, none, none⟩], []⟩ [100] [99] ∧
      mkRecommendation ⟨1, "A", 3, 1, 3, none, none, 1⟩ 10
          (sumSpending [] 1 (fmtDate (cycle_start_date 1 (2026, 2, 19))))
        = mkRecommendation card 10
          (sumSpending
            (⟨[⟨1, "A", [[100]], [[99]], 3, none, 1, 1, none, none⟩], []⟩ : DB).spending
            card.id (fmtDate (cycle_start_date card.statement_renewal_date (2026, 2, 19)))) ∧
      ((mkRecommendation ⟨1, "A", 3, 1, 3, none, none, 1⟩ 10
          (sumSpending [] 1 (fmtDate (cycle_start_date 1 (2026, 2, 19))))).eligible,
       (mkRecommendation ⟨1, "A", 3, 1, 3, none, none, 1⟩ 10
          (sumSpending [] 1 (fmtDate (cycle_start_date 1 (2026, 2, 19))))).reason)
        = eligibilitySpec 10
          (sumSpending
            (⟨[⟨1, "A", [[100]], [[99]], 3, none, 1, 1, none, none⟩], []⟩ : DB).spending
            card.id (fmtDate (cycle_start_date card.statement_renewal_date (2026, 2, 19))))
          card.max_reward_limit card.min_spend) := by
  refine ⟨eligibility_priority_order.1 ⟨1, "A", 3, 1, 3, none, none, 1⟩ 10 0, ?_⟩
  exact eligibility_priority_order.2
    ⟨[⟨1, "A", [[100]], [[99]], 3, none, 1, 1, none, none⟩], []⟩ [100] [99] 10
    (2026, 2, 19)
    (mkRecommendation ⟨1, "A", 3, 1, 3, none, none, 1⟩ 10
      (sumSpending [] 1 (fmtDate (cycle_start_date 1 (2026, 2, 19)))))
    (by
      rw [bestCardDb_eq]
      norm_num [queryCandidates, lowerAscii, mkRecommendation, sumSpending,
        calculate_miles, Rat.floor, recLe, List.mergeSort, List.merge,
        List.filter, List.any])

/-- Closed witness for the ranking claim: sortedness of a concrete output
and stability on a pair of candidates tied on both keys. -/
theorem ranking_order_witness :
    (bestCardDb
      ⟨[⟨1, "A", [[100]], [[99]], 3, none, 1, 1, none, none⟩,
        ⟨2, "B", [[100]], [[99]], 3, none, 1, 1, none, none⟩], []⟩
      [100] [99] 10 (2026, 2, 19)).Pairwise recOrdered ∧
    [mkRecommendation ⟨1, "A", 3, 1, 3, none, none, 1⟩ 10
        (sumSpending [] 1 (fmtDate (cycle_start_date 1 (2026, 2, 19)))),
     mkRecommendation ⟨2, "B", 3, 1, 3, none, none, 1⟩ 10
        (sumSpending [] 2 (fmtDate (cycle_start_date 1 (2026, 2, 19))))].Sublist
      (bestCardDb
        ⟨[⟨1, "A", [[100]], [[99]], 3, none, 1, 1, none, none⟩,
          ⟨2, "B", [[100]], [[99]], 3, none, 1, 1, none, none⟩], []⟩
        [100] [99] 10 (2026, 2, 19)) := by
  constructor
  · exact (ranking_order.1
      ⟨[⟨1, "A", [[100]], [[99]], 3, none, 1, 1, none, none⟩,
        ⟨2, "B", [[100]], [[99]], 3, none, 1, 1, none, none⟩], []⟩
      [100] [99] 10 (2026, 2, 19)).1
  · refine (ranking_order.1
      ⟨[⟨1, "A", [[100]], [[99]], 3, none, 1, 1, none, none⟩,
        ⟨2, "B", [[100]], [[99]], 3, none, 1, 1, none, none⟩], []⟩
      [100] [99] 10 (2026, 2, 19)).2.2
      (mkRecommendation ⟨1, "A", 3, 1, 3, none, none, 1⟩ 10
        (sumSpending [] 1 (fmtDate (cycle_start_date 1 (2026, 2, 19)))))
      (mkRecommendation ⟨2, "B", 3, 1, 3, none, none, 1⟩ 10
        (sumSpending [] 2 (fmtDate (cycle_start_date 1 (2026, 2, 19)))))
      ?_ ?_
    · constructor <;>
        norm_num [recTie, mkRecommendation, sumSpending, calculate_miles, Rat.floor,
          List.filter]
    · norm_num [queryCandidates, lowerAscii, mkRecommendation, sumSpending,
        calculate_miles, Rat.floor, List.mergeSort, List.merge, List.filter,
        List.any]
